import Mathlib

/-!
Shallow embedding of `src/correction.py` (class `Correction`).

Modelling conventions:
* Machine floats are modelled as exact rationals (line transformer) or
  exact reals (calibration solver).  Effects of binary floating point that
  the claims do not exercise (signed zero, representation error of decimal
  literals) are outside the model.
* A numpy NaN is modelled by `none` in `FVal := Option Real` on the solver
  side; the propagation rules of the arithmetic helpers mirror IEEE NaN
  propagation.  A division by exact zero is also mapped to `none` (IEEE
  would give an infinity); no theorem below goes through that branch with
  a zero denominator and a defined numerator.
* A raised Python exception is modelled by an `Option`-valued function
  returning `none` (`float(...)` raising `ValueError` inside
  `Correction._parse_line`, `np.linalg.inv` raising `LinAlgError` inside
  `Correction._calculate_matrix`).
* `logger.warning` calls of `Correction._validate` are modelled as the
  returned list of warning strings, in emission order.
* Python `float(s)` is modelled on its numeric-literal fragment: optional
  sign, decimal digits with an optional point, optional exponent.  The
  `inf`/`nan` words and underscore digit separators that CPython also
  accepts are not modelled; no claim exercises them.
-/

attribute [local semireducible] Rat.add Rat.mul Rat.inv Rat.sub Rat.ofScientific

namespace Cnc

/-! ## Tokenizing, `float()` parsing (`Correction._parse_line` helpers) -/

/-- Split a character stream on runs of whitespace; `acc` holds the
characters of the current token in reverse. -/
def splitWSChars : List Char → List Char → List String
  | [], acc => if acc.isEmpty then [] else [String.mk acc.reverse]
  | c :: r, acc =>
    if c.isWhitespace then
      (if acc.isEmpty then splitWSChars r [] else String.mk acc.reverse :: splitWSChars r [])
    else splitWSChars r (c :: acc)

/-- `line.split()`: split on runs of whitespace, dropping empty pieces. -/
def splitWS (s : String) : List String := splitWSChars s.data []

/-- `token[1:]`: the token without its first character. -/
def tokRest (t : String) : String := String.mk (t.data.drop 1)

/-- Decimal digits, most significant first, as a natural number. -/
def natOfDigits (l : List Char) : Nat :=
  l.foldl (fun n c => 10 * n + (c.toNat - 48)) 0

/-- A nonempty all-digit string of the exponent part, or `none`. -/
def digitsAll (l : List Char) : Option Nat :=
  if l.isEmpty then none
  else if l.all Char.isDigit then some (natOfDigits l) else none

/-- The optional exponent part of a float literal, applied to mantissa `m`. -/
def parseExpPart (m : Rat) : List Char → Option Rat
  | [] => some m
  | c :: r =>
    if c = 'e' ∨ c = 'E' then
      match r with
      | '+' :: r2 => (digitsAll r2).map (fun e => m * (10 : Rat) ^ (e : Int))
      | '-' :: r2 => (digitsAll r2).map (fun e => m * (10 : Rat) ^ (-(e : Int)))
      | r2 => (digitsAll r2).map (fun e => m * (10 : Rat) ^ (e : Int))
    else none

/-- An unsigned float literal: digits, an optional point, optional digits,
an optional exponent; at least one mantissa digit. -/
def parseUnsigned (l : List Char) : Option Rat :=
  let s1 := l.span Char.isDigit
  match s1.2 with
  | '.' :: r2 =>
    let s2 := r2.span Char.isDigit
    if s1.1.isEmpty ∧ s2.1.isEmpty then none
    else
      parseExpPart
        ((natOfDigits s1.1 : Rat) + (natOfDigits s2.1 : Rat) / (10 : Rat) ^ s2.1.length)
        s2.2
  | r1 => if s1.1.isEmpty then none else parseExpPart (natOfDigits s1.1 : Rat) r1

/-- Python `float(s)` on a whitespace-free token remainder, `none` when the
call would raise `ValueError`. -/
def parseFloat (s : String) : Option Rat :=
  match s.toList with
  | '+' :: r => parseUnsigned r
  | '-' :: r => (parseUnsigned r).map (fun q => -q)
  | r => parseUnsigned r

/-! ## Vectors, matrices, rounding, formatting -/

structure Vec3 where
  x : Rat
  y : Rat
  z : Rat
  deriving DecidableEq, Repr

structure QMat3 where
  m11 : Rat
  m12 : Rat
  m13 : Rat
  m21 : Rat
  m22 : Rat
  m23 : Rat
  m31 : Rat
  m32 : Rat
  m33 : Rat
  deriving DecidableEq, Repr

/-- `self.T * point` for a `(3, 1)` vector. -/
def mulVecQ (M : QMat3) (v : Vec3) : Vec3 :=
  ⟨M.m11 * v.x + M.m12 * v.y + M.m13 * v.z,
   M.m21 * v.x + M.m22 * v.y + M.m23 * v.z,
   M.m31 * v.x + M.m32 * v.y + M.m33 * v.z⟩

/-- Round half away handled below; this is plain floor-based rounding. -/
def qround (q : Rat) : Int := Int.floor (q + 1 / 2)

/-- Round to the nearest integer, ties to the even integer, as `np.round`
and CPython float formatting do. -/
def roundHalfEvenQ (q : Rat) : Int :=
  if q - Int.floor q = 1 / 2 then 2 * qround (q / 2) else qround q

/-- `np.round(x, decimals=3)` on one component. -/
def round3 (q : Rat) : Rat := (roundHalfEvenQ (1000 * q) : Rat) / 1000

def round3v (v : Vec3) : Vec3 := ⟨round3 v.x, round3 v.y, round3 v.z⟩

/-- Three decimal digits, zero padded. -/
def pad3 (k : Nat) : String :=
  if k < 10 then "00" ++ toString k
  else if k < 100 then "0" ++ toString k
  else toString k

/-- Python `f"{q:.3f}"`. -/
def formatF3 (q : Rat) : String :=
  let n := roundHalfEvenQ (1000 * q)
  (if n < 0 then "-" else "") ++ toString (n.natAbs / 1000) ++ "." ++ pad3 (n.natAbs % 1000)

/-- Python `f"{q: .3f}"` (space flag: a blank where the sign would be). -/
def formatSpaceF3 (q : Rat) : String :=
  let n := roundHalfEvenQ (1000 * q)
  (if n < 0 then "-" else " ") ++ toString (n.natAbs / 1000) ++ "." ++ pad3 (n.natAbs % 1000)

/-! ## Limits and validation (`Correction._validate`) -/

structure Limits where
  upper : Vec3
  lower : Vec3
  deriving DecidableEq, Repr

def warnAbove (a : String) (v lim : Rat) : String :=
  "translated axis " ++ a ++ " is above upper limit: " ++ formatF3 v ++ " > " ++ formatSpaceF3 lim

def warnBelow (a : String) (v lim : Rat) : String :=
  "translated axis " ++ a ++ " is below lower limit: " ++ formatF3 v ++ " < " ++ formatSpaceF3 lim

/-- `Correction._validate`: the warnings logged for `xyz`, upper-bound
violations first (axis order X, Y, Z), then lower-bound violations. -/
def validateQ (L : Limits) (v : Vec3) : List String :=
  (if L.upper.x < v.x then [warnAbove "X" v.x L.upper.x] else []) ++
  (if L.upper.y < v.y then [warnAbove "Y" v.y L.upper.y] else []) ++
  (if L.upper.z < v.z then [warnAbove "Z" v.z L.upper.z] else []) ++
  (if v.x < L.lower.x then [warnBelow "X" v.x L.lower.x] else []) ++
  (if v.y < L.lower.y then [warnBelow "Y" v.y L.lower.y] else []) ++
  (if v.z < L.lower.z then [warnBelow "Z" v.z L.lower.z] else [])

/-! ## Line parsing state (`Correction._parse_line`) -/

/-- `token[0] in self.XYZ`, and `self.XYZ.index(token[0])`. -/
def axisIdxOf (t : String) : Option Nat :=
  match t.toList with
  | [] => none
  | c :: _ =>
    if c = 'X' then some 0 else if c = 'Y' then some 1 else if c = 'Z' then some 2 else none

def isAxisTok (t : String) : Bool := (axisIdxOf t).isSome

/-- `self.xyz_original[k] = value`. -/
def setA (v : Vec3) (k : Nat) (q : Rat) : Vec3 :=
  if k = 0 then ⟨q, v.y, v.z⟩ else if k = 1 then ⟨v.x, q, v.z⟩ else ⟨v.x, v.y, q⟩

def getA (v : Vec3) (k : Nat) : Rat :=
  if k = 0 then v.x else if k = 1 then v.y else v.z

/-- `PositionState`: `xyz_original` (`last_nominal`) and `xyz_translated`
(`last_corrected`; `none` models the fresh NaN vector of
`Correction._init_coordinates`). -/
structure PState where
  orig : Vec3
  transl : Option Vec3
  deriving DecidableEq, Repr

/-- State of the token loop of `Correction._parse_line`: the pass-through
tokens collected so far, `coordinate_low_index` (`none` for `-1`), and the
working copy of `xyz_original`. -/
structure ScanSt where
  outs : List String
  low : Option Nat
  xyz : Vec3
  deriving DecidableEq, Repr

/-- Result of one `_parse_line` call: output tokens, logged warnings, and
the mutated position state. -/
structure LineRes where
  outToks : List String
  warns : List String
  st : PState
  deriving DecidableEq, Repr

/-- The `for index, token in enumerate(tokens)` loop of
`Correction._parse_line`; `none` models the `ValueError` that
`float(token[1:])` raises on a non-numeric remainder. -/
def scanTokens : ScanSt → Nat → List String → Option ScanSt
  | s, _, [] => some s
  | s, i, t :: ts =>
    match axisIdxOf t with
    | some k =>
      match parseFloat (tokRest t) with
      | none => none
      | some v =>
        scanTokens
          ⟨s.outs, (match s.low with | none => some i | some j => some j), setA s.xyz k v⟩
          (i + 1) ts
    | none => scanTokens ⟨s.outs ++ [t], s.low, s.xyz⟩ (i + 1) ts

/-- The three sequential `tokens_out.insert(coordinate_low_index, ...)`
calls, `coordinate_low_index` incremented after each; equal to splicing the
three tokens in at position `k` (Python `list.insert` clamps an index past
the end exactly as `take`/`drop` do). -/
def insert3at (k : Nat) (l : List String) (a b c : String) : List String :=
  l.take k ++ [a, b, c] ++ l.drop k

/-- `Correction._parse_line` on an already-split token list. -/
def parseTokens (T : QMat3) (L : Limits) (st : PState) (ts : List String) : Option LineRes :=
  match scanTokens ⟨[], none, st.orig⟩ 0 ts with
  | none => none
  | some r =>
    let nt := round3v (mulVecQ T r.xyz)
    let ws := validateQ L nt
    match r.low with
    | some k =>
      some ⟨insert3at k r.outs ("X" ++ formatF3 nt.x) ("Y" ++ formatF3 nt.y)
              ("Z" ++ formatF3 nt.z),
            ws, ⟨r.xyz, some nt⟩⟩
    | none => some ⟨r.outs, ws, ⟨r.xyz, st.transl⟩⟩

/-- `Correction._parse_line`: the returned line `' '.join(tokens_out)`,
the warnings, and the state after the call. -/
def parse_line (T : QMat3) (L : Limits) (st : PState) (line : String) :
    Option (String × List String × PState) :=
  (parseTokens T L st (splitWS line)).map
    (fun r => (String.intercalate " " r.outToks, r.warns, r.st))

/-- The per-line loop of `Correction.parse_file`: each processed line's
result in order, threading the position state. -/
def processLines (T : QMat3) (L : Limits) : PState → List String → Option (List LineRes)
  | _, [] => some []
  | st, l :: ls =>
    match parseTokens T L st (splitWS l) with
    | none => none
    | some r => (processLines T L r.st ls).map (fun rest => r :: rest)

/-- The state `Correction._init_coordinates` installs: `xyz_original` zero,
`xyz_translated` NaN. -/
def initState : PState := ⟨⟨0, 0, 0⟩, none⟩

/-- The identity correction matrix. -/
def idQ : QMat3 := ⟨1, 0, 0, 0, 1, 0, 0, 0, 1⟩

/-- The all-zero limits `Correction.__init__` starts from. -/
def lims0 : Limits := ⟨⟨0, 0, 0⟩, ⟨0, 0, 0⟩⟩

/-! ## Specification-side vocabulary (derived, used to state the claims) -/

/-- An axis word in the sense of the specification: axis letter followed by
a remainder that `float` accepts. -/
def isAxisWord (t : String) : Bool := isAxisTok t && (parseFloat (tokRest t)).isSome

/-- Index of the first token whose first character is an axis letter. -/
def firstIdxA : List String → Option Nat
  | [] => none
  | t :: ts => if isAxisTok t then some 0 else (firstIdxA ts).map (fun n => n + 1)

/-- The pass-through tokens of a token list. -/
def passToks (ts : List String) : List String := ts.filter (fun t => !isAxisTok t)

/-- The nominal-position updates a token list performs, in token order. -/
def updVec (v : Vec3) (ts : List String) : Vec3 :=
  ts.foldl
    (fun w t =>
      match axisIdxOf t, parseFloat (tokRest t) with
      | some k, some q => setA w k q
      | _, _ => w)
    v

/-- Wide limits that nothing in the witnesses violates. -/
def limsBig : Limits := ⟨⟨1000, 1000, 1000⟩, ⟨-1000, -1000, -1000⟩⟩

/-- A line that specifies only the X axis: every axis-letter token is a
well-formed X word, and there is at least one. -/
abbrev xOnlyLine (l : String) : Prop :=
  (∀ t ∈ splitWS l,
      isAxisTok t = true → axisIdxOf t = some 0 ∧ (parseFloat (tokRest t)).isSome = true) ∧
  ∃ t ∈ splitWS l, isAxisTok t = true

/-! ## Calibration solver (`Correction._parse_parameters`,
`Correction._calculate_matrix`), over exact reals with NaN as `none` -/

noncomputable section

/-- A float value: `none` models IEEE NaN (and, for `fdiv` by exact zero,
the infinity numpy would produce; no theorem below reaches that case with
a defined numerator and zero denominator). -/
abbrev FVal : Type := Option ℝ

def fadd : FVal → FVal → FVal
  | some a, some b => some (a + b)
  | _, _ => none

def fsub : FVal → FVal → FVal
  | some a, some b => some (a - b)
  | _, _ => none

def fmul : FVal → FVal → FVal
  | some a, some b => some (a * b)
  | _, _ => none

def fneg : FVal → FVal
  | some a => some (-a)
  | none => none

def fdiv : FVal → FVal → FVal
  | some a, some b => if b = 0 then none else some (a / b)
  | _, _ => none

def fcos : FVal → FVal
  | some a => some (Real.cos a)
  | none => none

def fsin : FVal → FVal
  | some a => some (Real.sin a)
  | none => none

/-- `np.sqrt`: NaN on a negative argument. -/
def fsqrt : FVal → FVal
  | some a => if a < 0 then none else some (Real.sqrt a)
  | none => none

/-- `np.arccos`: NaN outside `[-1, 1]`. -/
def farccos : FVal → FVal
  | some a => if -1 ≤ a ∧ a ≤ 1 then some (Real.arccos a) else none
  | none => none

/-- `np.power(v, 2)`. -/
def fpow2 (v : FVal) : FVal := fmul v v

/-- `np.arctan2(y, x)` (total on the reals; `arctan2 0 0 = 0`). -/
def arctan2 (y x : ℝ) : ℝ :=
  if 0 < x then Real.arctan (y / x)
  else if x < 0 then
    (if 0 ≤ y then Real.arctan (y / x) + Real.pi else Real.arctan (y / x) - Real.pi)
  else if 0 < y then Real.pi / 2
  else if y < 0 then -(Real.pi / 2)
  else 0

/-- The six scalars of `self.cfg['translation']`. -/
structure TranslationCfg where
  side_x : ℝ
  side_y : ℝ
  diagonal_from_x0y0 : ℝ
  height : ℝ
  z_to_x : ℝ
  z_to_y : ℝ

/-- The three inter-axis angles `Correction._parse_parameters` derives. -/
structure Angles where
  angle_ab : FVal
  angle_ac : FVal
  angle_bc : FVal

/-- `Correction._parse_parameters` (the limits it also copies are modelled
separately by `Limits` on the line-transformer side). -/
def parse_parameters (c : TranslationCfg) : Angles :=
  let w := fdiv (some (c.diagonal_from_x0y0 ^ 2 - (c.side_x ^ 2 + c.side_y ^ 2)))
    (some (2 * c.side_x))
  ⟨farccos (fdiv w (some c.side_y)),
   some (arctan2 c.height c.z_to_x),
   some (arctan2 c.height c.z_to_y)⟩

/-- A 3 by 3 matrix of float values. -/
structure FMat3 where
  e11 : FVal
  e12 : FVal
  e13 : FVal
  e21 : FVal
  e22 : FVal
  e23 : FVal
  e31 : FVal
  e32 : FVal
  e33 : FVal

def fdet3 (M : FMat3) : FVal :=
  fadd
    (fsub (fmul M.e11 (fsub (fmul M.e22 M.e33) (fmul M.e23 M.e32)))
      (fmul M.e12 (fsub (fmul M.e21 M.e33) (fmul M.e23 M.e31))))
    (fmul M.e13 (fsub (fmul M.e21 M.e32) (fmul M.e22 M.e31)))

/-- `np.linalg.inv`: `none` models the `LinAlgError` raised for an exactly
singular matrix; a NaN determinant raises nothing and every entry of the
result is NaN (`fdiv` by `none`). On a nonsingular real matrix this is the
exact adjugate-over-determinant inverse. -/
def finv3 (M : FMat3) : Option FMat3 :=
  let d := fdet3 M
  if d = some 0 then none
  else some
    ⟨fdiv (fsub (fmul M.e22 M.e33) (fmul M.e23 M.e32)) d,
     fdiv (fneg (fsub (fmul M.e12 M.e33) (fmul M.e13 M.e32))) d,
     fdiv (fsub (fmul M.e12 M.e23) (fmul M.e13 M.e22)) d,
     fdiv (fneg (fsub (fmul M.e21 M.e33) (fmul M.e23 M.e31))) d,
     fdiv (fsub (fmul M.e11 M.e33) (fmul M.e13 M.e31)) d,
     fdiv (fneg (fsub (fmul M.e11 M.e23) (fmul M.e13 M.e21))) d,
     fdiv (fsub (fmul M.e21 M.e32) (fmul M.e22 M.e31)) d,
     fdiv (fneg (fsub (fmul M.e11 M.e32) (fmul M.e12 M.e31))) d,
     fdiv (fsub (fmul M.e11 M.e22) (fmul M.e12 M.e21)) d⟩

/-- The oblique-to-orthogonal basis matrix `self.T` before inversion
(`Correction._calculate_matrix` lines building `np.matrix([...])`). -/
def basisF (A : Angles) : FMat3 :=
  let x3 := fcos A.angle_ac
  let y3 := fdiv (fsub (fcos A.angle_bc) (fmul x3 (fcos A.angle_ab))) (fsin A.angle_ab)
  ⟨some 1, fcos A.angle_ab, x3,
   some 0, fsin A.angle_ab, y3,
   some 0, some 0, fsqrt (fsub (fsub (some 1) (fpow2 x3)) (fpow2 y3))⟩

/-- `Correction._calculate_matrix`: build the basis matrix and invert it;
`none` models a raised `LinAlgError`. -/
def calculate_matrix (A : Angles) : Option FMat3 := finv3 (basisF A)

def fmatMul3 (A B : FMat3) : FMat3 :=
  ⟨fadd (fadd (fmul A.e11 B.e11) (fmul A.e12 B.e21)) (fmul A.e13 B.e31),
   fadd (fadd (fmul A.e11 B.e12) (fmul A.e12 B.e22)) (fmul A.e13 B.e32),
   fadd (fadd (fmul A.e11 B.e13) (fmul A.e12 B.e23)) (fmul A.e13 B.e33),
   fadd (fadd (fmul A.e21 B.e11) (fmul A.e22 B.e21)) (fmul A.e23 B.e31),
   fadd (fadd (fmul A.e21 B.e12) (fmul A.e22 B.e22)) (fmul A.e23 B.e32),
   fadd (fadd (fmul A.e21 B.e13) (fmul A.e22 B.e23)) (fmul A.e23 B.e33),
   fadd (fadd (fmul A.e31 B.e11) (fmul A.e32 B.e21)) (fmul A.e33 B.e31),
   fadd (fadd (fmul A.e31 B.e12) (fmul A.e32 B.e22)) (fmul A.e33 B.e32),
   fadd (fadd (fmul A.e31 B.e13) (fmul A.e32 B.e23)) (fmul A.e33 B.e33)⟩

/-- The float identity matrix. -/
def fid3 : FMat3 :=
  ⟨some 1, some 0, some 0, some 0, some 1, some 0, some 0, some 0, some 1⟩

/-- The all-NaN matrix. -/
def nanMat3 : FMat3 := ⟨none, none, none, none, none, none, none, none, none⟩

/-- The calibration input of the right-angle scenario: side_x = side_y =
100, diagonal = 141.421, with exactly right-angled z measurements. -/
def cfg8 : TranslationCfg := ⟨100, 100, (141421 : ℝ) / 1000, 1, 0, 0⟩

/-- The cosine the scenario diagonal yields: `w / b` for `cfg8`. -/
def u8 : ℝ := -(100759 / 20000000000)

end

/-! ## Lemmas about the token scan -/

/-- How `coordinate_low_index` combines: an already-recorded index wins. -/
def mergeLow : Option Nat → Option Nat → Option Nat
  | some j, _ => some j
  | none, b => b

lemma mergeLow_none (a : Option Nat) : mergeLow a none = a := by
  cases a <;> rfl

lemma isAxisTok_iff (t : String) : isAxisTok t = true ↔ ∃ k, axisIdxOf t = some k := by
  cases h : axisIdxOf t <;> simp [isAxisTok, h]

lemma axisIdxOf_cases {t : String} {k : Nat} (h : axisIdxOf t = some k) :
    k = 0 ∨ k = 1 ∨ k = 2 := by
  unfold axisIdxOf at h
  split at h
  · simp at h
  · split at h
    · simp at h; omega
    · split at h
      · simp at h; omega
      · split at h
        · simp at h; omega
        · simp at h

lemma passToks_cons_axis {t : String} (ts : List String) (h : isAxisTok t = true) :
    passToks (t :: ts) = passToks ts := by
  simp [passToks, List.filter_cons, h]

lemma passToks_cons_pass {t : String} (ts : List String) (h : isAxisTok t = false) :
    passToks (t :: ts) = t :: passToks ts := by
  simp [passToks, List.filter_cons, h]

lemma firstIdxA_cons_axis {t : String} (ts : List String) (h : isAxisTok t = true) :
    firstIdxA (t :: ts) = some 0 := by
  simp [firstIdxA, h]

lemma firstIdxA_cons_pass {t : String} (ts : List String) (h : isAxisTok t = false) :
    firstIdxA (t :: ts) = (firstIdxA ts).map (fun n => n + 1) := by
  simp [firstIdxA, h]

lemma updVec_cons_axis {t : String} {k : Nat} {v : Rat} (w : Vec3) (ts : List String)
    (haxis : axisIdxOf t = some k) (hv : parseFloat (tokRest t) = some v) :
    updVec w (t :: ts) = updVec (setA w k v) ts := by
  simp [updVec, List.foldl_cons, haxis, hv]

lemma updVec_cons_pass {t : String} (w : Vec3) (ts : List String) (h : axisIdxOf t = none) :
    updVec w (t :: ts) = updVec w ts := by
  simp [updVec, List.foldl_cons, h]

lemma scanTokens_eq (ts : List String) : ∀ (s : ScanSt) (i : Nat),
    (∀ t ∈ ts, isAxisTok t = true → (parseFloat (tokRest t)).isSome = true) →
    scanTokens s i ts =
      some ⟨s.outs ++ passToks ts,
            mergeLow s.low ((firstIdxA ts).map (fun n => n + i)),
            updVec s.xyz ts⟩ := by
  induction ts with
  | nil =>
    intro s i _
    simp [scanTokens, passToks, firstIdxA, updVec, mergeLow_none]
  | cons t ts ih =>
    intro s i h
    cases haxis : axisIdxOf t with
    | some k =>
      have htok : isAxisTok t = true := by simp [isAxisTok, haxis]
      obtain ⟨v, hv⟩ := Option.isSome_iff_exists.mp (h t (by simp) htok)
      have hrest : ∀ u ∈ ts, isAxisTok u = true → (parseFloat (tokRest u)).isSome = true :=
        fun u hu => h u (List.mem_cons_of_mem _ hu)
      simp only [scanTokens, haxis, hv]
      rw [ih _ (i + 1) hrest]
      rw [passToks_cons_axis ts htok, firstIdxA_cons_axis ts htok,
        updVec_cons_axis s.xyz ts haxis hv]
      cases hlow : s.low <;> simp [mergeLow, hlow]
    | none =>
      have htok : isAxisTok t = false := by simp [isAxisTok, haxis]
      have hrest : ∀ u ∈ ts, isAxisTok u = true → (parseFloat (tokRest u)).isSome = true :=
        fun u hu => h u (List.mem_cons_of_mem _ hu)
      simp only [scanTokens, haxis]
      rw [ih _ (i + 1) hrest]
      rw [passToks_cons_pass ts htok, firstIdxA_cons_pass ts htok,
        updVec_cons_pass s.xyz ts haxis]
      cases hfi : firstIdxA ts <;>
        simp [List.append_assoc, Nat.add_assoc, Nat.add_comm 1 i]

lemma scanTokens_isSome (ts : List String) : ∀ (s : ScanSt) (i : Nat),
    (scanTokens s i ts).isSome = true ↔
      ∀ t ∈ ts, isAxisTok t = true → (parseFloat (tokRest t)).isSome = true := by
  induction ts with
  | nil => intro s i; simp [scanTokens]
  | cons t ts ih =>
    intro s i
    cases haxis : axisIdxOf t with
    | some k =>
      have htok : isAxisTok t = true := by simp [isAxisTok, haxis]
      cases hv : parseFloat (tokRest t) with
      | none =>
        simp only [scanTokens, haxis, hv]
        constructor
        · intro hh; simp at hh
        · intro hh
          have := hh t (by simp) htok
          rw [hv] at this
          simp at this
      | some v =>
        simp only [scanTokens, haxis, hv]
        rw [ih]
        constructor
        · intro hh u hu htu
          rcases List.mem_cons.mp hu with rfl | hm
          · rw [hv]; rfl
          · exact hh u hm htu
        · intro hh u hu htu; exact hh u (List.mem_cons_of_mem _ hu) htu
    | none =>
      have htok : isAxisTok t = false := by simp [isAxisTok, haxis]
      simp only [scanTokens, haxis]
      rw [ih]
      constructor
      · intro hh u hu htu
        rcases List.mem_cons.mp hu with rfl | hm
        · rw [htok] at htu; cases htu
        · exact hh u hm htu
      · intro hh u hu htu; exact hh u (List.mem_cons_of_mem _ hu) htu

lemma isAxisTok_false_iff (t : String) : isAxisTok t = false ↔ axisIdxOf t = none := by
  cases h : axisIdxOf t <;> simp [isAxisTok, h]

lemma firstIdxA_none_iff (ts : List String) :
    firstIdxA ts = none ↔ ∀ t ∈ ts, isAxisTok t = false := by
  induction ts with
  | nil => simp [firstIdxA]
  | cons t ts ih =>
    cases h : isAxisTok t with
    | true => simp [firstIdxA, h]
    | false => simp [firstIdxA, h, ih]

lemma firstIdxA_take {ts : List String} {k : Nat} (h : firstIdxA ts = some k) :
    ∀ t ∈ ts.take k, isAxisTok t = false := by
  induction ts generalizing k with
  | nil => simp [firstIdxA] at h
  | cons t ts ih =>
    cases ha : isAxisTok t with
    | true =>
      rw [firstIdxA_cons_axis ts ha] at h
      obtain rfl : (0 : Nat) = k := Option.some.inj h
      simp
    | false =>
      rw [firstIdxA_cons_pass ts ha] at h
      cases hfi : firstIdxA ts with
      | none => rw [hfi] at h; simp at h
      | some m =>
        rw [hfi] at h
        simp only [Option.map_some'] at h
        obtain rfl : m + 1 = k := Option.some.inj h
        intro u hu
        rw [List.take_succ_cons] at hu
        rcases List.mem_cons.mp hu with rfl | hm
        · exact ha
        · exact ih hfi u hm

lemma firstIdxA_drop {ts : List String} {k : Nat} (h : firstIdxA ts = some k) :
    ∃ t rest, ts.drop k = t :: rest ∧ isAxisTok t = true := by
  induction ts generalizing k with
  | nil => simp [firstIdxA] at h
  | cons t ts ih =>
    cases ha : isAxisTok t with
    | true =>
      rw [firstIdxA_cons_axis ts ha] at h
      obtain rfl : (0 : Nat) = k := Option.some.inj h
      exact ⟨t, ts, rfl, ha⟩
    | false =>
      rw [firstIdxA_cons_pass ts ha] at h
      cases hfi : firstIdxA ts with
      | none => rw [hfi] at h; simp at h
      | some m =>
        rw [hfi] at h
        simp only [Option.map_some'] at h
        obtain rfl : m + 1 = k := Option.some.inj h
        rw [List.drop_succ_cons]
        exact ih hfi

lemma firstIdxA_lt_length {ts : List String} {k : Nat} (h : firstIdxA ts = some k) :
    k < ts.length := by
  by_contra hc
  obtain ⟨t, rest, hd, _⟩ := firstIdxA_drop h
  rw [List.drop_eq_nil_of_le (by omega)] at hd
  cases hd

lemma firstIdxA_isSome_of_mem {ts : List String} {t : String} (ht : t ∈ ts)
    (ha : isAxisTok t = true) : ∃ k, firstIdxA ts = some k := by
  cases hfi : firstIdxA ts with
  | none => rw [(firstIdxA_none_iff ts).mp hfi t ht] at ha; cases ha
  | some k => exact ⟨k, rfl⟩

lemma updVec_noAxis (v : Vec3) (ts : List String) (h : ∀ t ∈ ts, isAxisTok t = false) :
    updVec v ts = v := by
  induction ts with
  | nil => rfl
  | cons t ts ih =>
    rw [updVec_cons_pass v ts ((isAxisTok_false_iff t).mp (h t (by simp)))]
    exact ih (fun u hu => h u (List.mem_cons_of_mem _ hu))

lemma passToks_eq_self (ts : List String) (h : ∀ t ∈ ts, isAxisTok t = false) :
    passToks ts = ts := by
  unfold passToks
  exact List.filter_eq_self.mpr (fun t ht => by rw [h t ht]; rfl)

/-- On a token list with no axis-letter token, `_parse_line` performs the
transform and the validation on the held-over nominal position, inserts
nothing, and leaves the position state as it was. -/
lemma parseTokens_noAxis (T : QMat3) (L : Limits) (st : PState) (ts : List String)
    (h : ∀ t ∈ ts, isAxisTok t = false) :
    parseTokens T L st ts = some ⟨ts, validateQ L (round3v (mulVecQ T st.orig)), st⟩ := by
  have hall : ∀ t ∈ ts, isAxisTok t = true → (parseFloat (tokRest t)).isSome = true := by
    intro t ht htt; rw [h t ht] at htt; cases htt
  unfold parseTokens
  rw [scanTokens_eq ts ⟨[], none, st.orig⟩ 0 hall]
  have hfi : firstIdxA ts = none := (firstIdxA_none_iff ts).mpr h
  simp [hfi, mergeLow, passToks_eq_self ts h, updVec_noAxis st.orig ts h]

lemma insert3at_passToks {ts : List String} {k : Nat} (hk : firstIdxA ts = some k)
    (a b c : String) :
    insert3at k (passToks ts) a b c = ts.take k ++ [a, b, c] ++ passToks (ts.drop k) := by
  have h1 : ∀ t ∈ ts.take k, isAxisTok t = false := firstIdxA_take hk
  have hsplit : passToks ts = ts.take k ++ passToks (ts.drop k) := by
    conv_lhs => rw [← List.take_append_drop k ts]
    unfold passToks
    rw [List.filter_append]
    congr 1
    exact List.filter_eq_self.mpr (fun t ht => by rw [h1 t ht]; rfl)
  have hlen : (ts.take k).length = k := by
    rw [List.length_take]
    have := firstIdxA_lt_length hk
    omega
  unfold insert3at
  rw [hsplit, List.take_left' hlen, List.drop_left' hlen]

/-- On a token list whose first axis-letter token sits at index `k` and all
of whose axis-letter tokens parse, `_parse_line` updates the nominal
position in token order, transforms and rounds it, and splices the three
formatted axis tokens in at position `k` of the output. -/
lemma parseTokens_withAxis (T : QMat3) (L : Limits) (st : PState) (ts : List String)
    (k : Nat)
    (hall : ∀ t ∈ ts, isAxisTok t = true → (parseFloat (tokRest t)).isSome = true)
    (hk : firstIdxA ts = some k) :
    parseTokens T L st ts =
      some ⟨ts.take k ++
              ["X" ++ formatF3 ((round3v (mulVecQ T (updVec st.orig ts))).x),
               "Y" ++ formatF3 ((round3v (mulVecQ T (updVec st.orig ts))).y),
               "Z" ++ formatF3 ((round3v (mulVecQ T (updVec st.orig ts))).z)] ++
              passToks (ts.drop k),
            validateQ L (round3v (mulVecQ T (updVec st.orig ts))),
            ⟨updVec st.orig ts, some (round3v (mulVecQ T (updVec st.orig ts)))⟩⟩ := by
  unfold parseTokens
  rw [scanTokens_eq ts ⟨[], none, st.orig⟩ 0 hall]
  simp [hk, mergeLow, insert3at_passToks hk]

lemma parseTokens_isSome_eq (T : QMat3) (L : Limits) (st : PState) (ts : List String) :
    (parseTokens T L st ts).isSome = (scanTokens ⟨[], none, st.orig⟩ 0 ts).isSome := by
  unfold parseTokens
  cases h : scanTokens ⟨[], none, st.orig⟩ 0 ts with
  | none => rfl
  | some r => cases hl : r.low <;> simp [hl]

lemma parse_line_isSome_eq (T : QMat3) (L : Limits) (st : PState) (line : String) :
    (parse_line T L st line).isSome = (parseTokens T L st (splitWS line)).isSome := by
  unfold parse_line
  cases parseTokens T L st (splitWS line) <;> rfl

lemma mulVecQ_id (v : Vec3) : mulVecQ idQ v = v := by
  cases v
  simp [mulVecQ, idQ]

/-- C1: `process_line` does not return a result on every input line: it
succeeds exactly when every token whose first character is X, Y or Z has a
remainder that `float` accepts; a malformed axis-letter token makes
`float(token[1:])` raise `ValueError` (modelled by `none`), it is not
passed through. This is the amended form of the claim. -/
theorem c1_total_iff_wellformed (T : QMat3) (L : Limits) (st : PState) (line : String) :
    (parse_line T L st line).isSome = true ↔
      ∀ t ∈ splitWS line, isAxisTok t = true → (parseFloat (tokRest t)).isSome = true := by
  rw [parse_line_isSome_eq, parseTokens_isSome_eq, scanTokens_isSome]

/-- C1, counterexample to the claim as stated: on the line `G1 Xabc` the
token `Xabc` starts with an axis letter but its remainder is not numeric;
`_parse_line` fails (raises) instead of passing the token through. -/
theorem c1_counterexample : parse_line idQ lims0 initState "G1 Xabc" = none := by decide

/-- C1, witness: a line whose axis-letter tokens all parse is processed. -/
theorem c1_witness : (parse_line idQ lims0 initState "G1 X1.5 Y2").isSome = true :=
  (c1_total_iff_wellformed idQ lims0 initState "G1 X1.5 Y2").mpr (by decide)

/-- C5 (amended: restricted to lines in which no token starts with an axis
letter): such a line is returned as its tokens joined by single spaces, and
the position state is returned unchanged. -/
theorem c5_no_axis_passthrough (T : QMat3) (L : Limits) (st : PState) (line : String)
    (h : ∀ t ∈ splitWS line, isAxisTok t = false) :
    parse_line T L st line =
      some (String.intercalate " " (splitWS line),
        validateQ L (round3v (mulVecQ T st.orig)), st) := by
  unfold parse_line
  rw [parseTokens_noAxis T L st (splitWS line) h]
  rfl

/-- C5, counterexample to the claim as stated: `G4 Yabc` contains no axis
word (the token `Yabc` has a non-numeric remainder), yet `_parse_line`
fails on it instead of returning the line unchanged. -/
theorem c5_counterexample :
    ((splitWS "G4 Yabc").all (fun t => !isAxisWord t)) = true ∧
      parse_line idQ lims0 initState "G4 Yabc" = none := by decide

/-- C5, witness: a coordinate-less line comes back normalized, with the
position state untouched. -/
theorem c5_witness :
    (∀ t ∈ splitWS "M3 S1000", isAxisTok t = false) ∧
      parse_line idQ lims0 initState "M3 S1000" = some ("M3 S1000", [], initState) :=
  ⟨by decide,
   (c5_no_axis_passthrough idQ lims0 initState "M3 S1000" (by decide)).trans (by decide)⟩

/-- C9: even on a line with no axis-letter token at all, `_parse_line`
applies the matrix to the held-over nominal position, rounds, and runs the
limit validation (producing its warnings) before the insertion decision;
no tokens are inserted and the state is unchanged. -/
theorem c9_validates_before_insertion (T : QMat3) (L : Limits) (st : PState) (line : String)
    (h : ∀ t ∈ splitWS line, isAxisTok t = false) :
    parseTokens T L st (splitWS line) =
      some ⟨splitWS line, validateQ L (round3v (mulVecQ T st.orig)), st⟩ :=
  parseTokens_noAxis T L st (splitWS line) h

/-- C9, witness: with held-over nominal X of 600 and an upper X limit of
500, the coordinate-less line `G4 P100` produces a limit warning. -/
theorem c9_witness :
    (∀ t ∈ splitWS "G4 P100", isAxisTok t = false) ∧
      parseTokens idQ ⟨⟨500, 500, 500⟩, ⟨-500, -500, -500⟩⟩ ⟨⟨600, 0, 0⟩, none⟩
          (splitWS "G4 P100") =
        some ⟨["G4", "P100"],
          ["translated axis X is above upper limit: 600.000 >  500.000"],
          ⟨⟨600, 0, 0⟩, none⟩⟩ ∧
      validateQ ⟨⟨500, 500, 500⟩, ⟨-500, -500, -500⟩⟩ (round3v (mulVecQ idQ ⟨600, 0, 0⟩)) ≠ [] :=
  ⟨by decide,
   (c9_validates_before_insertion idQ ⟨⟨500, 500, 500⟩, ⟨-500, -500, -500⟩⟩
       ⟨⟨600, 0, 0⟩, none⟩ "G4 P100" (by decide)).trans (by decide),
   by decide⟩

/-- C2 (amended: additionally assuming every axis-letter token of the line
parses): with the identity matrix, a line whose first axis word is at token
index `k` is emitted as the `k` pass-through tokens that preceded it, then
exactly the three axis tokens in fixed order X, Y, Z formatted to three
decimals from the rounded transformed nominal position, then the remaining
pass-through tokens. -/
theorem c2_identity_insertion (L : Limits) (st : PState) (line : String) (k : Nat)
    (hall : ∀ t ∈ splitWS line, isAxisTok t = true → (parseFloat (tokRest t)).isSome = true)
    (hk : firstIdxA (splitWS line) = some k) :
    parse_line idQ L st line =
      some (String.intercalate " "
          ((splitWS line).take k ++
            ["X" ++ formatF3 ((round3v (updVec st.orig (splitWS line))).x),
             "Y" ++ formatF3 ((round3v (updVec st.orig (splitWS line))).y),
             "Z" ++ formatF3 ((round3v (updVec st.orig (splitWS line))).z)] ++
            passToks ((splitWS line).drop k)),
        validateQ L (round3v (updVec st.orig (splitWS line))),
        ⟨updVec st.orig (splitWS line), some (round3v (updVec st.orig (splitWS line)))⟩) := by
  unfold parse_line
  rw [parseTokens_withAxis idQ L st (splitWS line) k hall hk, mulVecQ_id]
  rfl

/-- C2, counterexample to the claim as stated: `X1 X` contains the axis
word `X1`, but processing fails on the bare `X` token, so no output with
three inserted axis tokens exists for this line. -/
theorem c2_counterexample :
    ((splitWS "X1 X").any isAxisWord) = true ∧
      parse_line idQ lims0 initState "X1 X" = none := by decide

/-- C2, witness: the scenario line of the specification. -/
theorem c2_witness :
    (∀ t ∈ splitWS "G1 X10.000 Y20.000 F100",
        isAxisTok t = true → (parseFloat (tokRest t)).isSome = true) ∧
      firstIdxA (splitWS "G1 X10.000 Y20.000 F100") = some 1 ∧
      parse_line idQ limsBig initState "G1 X10.000 Y20.000 F100" =
        some ("G1 X10.000 Y20.000 Z0.000 F100", [], ⟨⟨10, 20, 0⟩, some ⟨10, 20, 0⟩⟩) :=
  ⟨by decide, by decide,
   (c2_identity_insertion limsBig initState "G1 X10.000 Y20.000 F100" 1
       (by decide) (by decide)).trans (by decide)⟩

lemma parseTokens_limits_indep (T : QMat3) (L1 L2 : Limits) (st : PState) (ts : List String) :
    (parseTokens T L1 st ts).map (fun r => (r.outToks, r.st)) =
      (parseTokens T L2 st ts).map (fun r => (r.outToks, r.st)) := by
  unfold parseTokens
  cases h : scanTokens ⟨[], none, st.orig⟩ 0 ts with
  | none => rfl
  | some r => cases hl : r.low <;> simp [hl]

/-- C6: with upper X limit 500 and lower X limit -10, a rounded corrected
X of 512.345 yields exactly one warning, naming axis X, the value 512.345
and the bound 500; a corrected X of -5 yields no warning (the other two
axes being within their limits); and validation never blocks output: the
output tokens and state of `_parse_line` do not depend on the limits. -/
theorem c6_limit_warnings (uy uz ly lz y z : Rat)
    (hyu : y ≤ uy) (hyl : ly ≤ y) (hzu : z ≤ uz) (hzl : lz ≤ z) :
    validateQ ⟨⟨500, uy, uz⟩, ⟨-10, ly, lz⟩⟩ ⟨512345 / 1000, y, z⟩ =
        ["translated axis X is above upper limit: 512.345 >  500.000"] ∧
      validateQ ⟨⟨500, uy, uz⟩, ⟨-10, ly, lz⟩⟩ ⟨-5, y, z⟩ = [] ∧
      ∀ (T : QMat3) (L1 L2 : Limits) (st : PState) (ts : List String),
        (parseTokens T L1 st ts).map (fun r => (r.outToks, r.st)) =
          (parseTokens T L2 st ts).map (fun r => (r.outToks, r.st)) := by
  refine ⟨?_, ?_, fun T L1 L2 st ts => parseTokens_limits_indep T L1 L2 st ts⟩
  · unfold validateQ
    rw [if_pos (by norm_num), if_neg (not_lt.mpr hyu), if_neg (not_lt.mpr hzu),
      if_neg (by norm_num), if_neg (not_lt.mpr hyl), if_neg (not_lt.mpr hzl)]
    dsimp only
    decide
  · unfold validateQ
    rw [if_neg (by norm_num), if_neg (not_lt.mpr hyu), if_neg (not_lt.mpr hzu),
      if_neg (by norm_num), if_neg (not_lt.mpr hyl), if_neg (not_lt.mpr hzl)]
    rfl

/-- C6, witness: the two scenario values against concrete Y and Z limits. -/
theorem c6_witness :
    validateQ ⟨⟨500, 1000, 1000⟩, ⟨-10, -1000, -1000⟩⟩ ⟨512345 / 1000, 0, 0⟩ =
        ["translated axis X is above upper limit: 512.345 >  500.000"] ∧
      validateQ ⟨⟨500, 1000, 1000⟩, ⟨-10, -1000, -1000⟩⟩ ⟨-5, 0, 0⟩ = [] ∧
      ∀ (T : QMat3) (L1 L2 : Limits) (st : PState) (ts : List String),
        (parseTokens T L1 st ts).map (fun r => (r.outToks, r.st)) =
          (parseTokens T L2 st ts).map (fun r => (r.outToks, r.st)) :=
  c6_limit_warnings 1000 1000 (-1000) (-1000) 0 0
    (by norm_num) (by norm_num) (by norm_num) (by norm_num)

lemma updVec_cons_axis_noparse {t : String} {k : Nat} (w : Vec3) (ts : List String)
    (ha : axisIdxOf t = some k) (hv : parseFloat (tokRest t) = none) :
    updVec w (t :: ts) = updVec w ts := by
  simp [updVec, List.foldl_cons, ha, hv]

lemma updVec_xonly (v : Vec3) (ts : List String)
    (h : ∀ t ∈ ts, isAxisTok t = true → axisIdxOf t = some 0) :
    (updVec v ts).y = v.y ∧ (updVec v ts).z = v.z := by
  induction ts generalizing v with
  | nil => exact ⟨rfl, rfl⟩
  | cons t ts ih =>
    have hrest : ∀ u ∈ ts, isAxisTok u = true → axisIdxOf u = some 0 :=
      fun u hu => h u (List.mem_cons_of_mem _ hu)
    cases ha : axisIdxOf t with
    | none =>
      rw [updVec_cons_pass v ts ha]
      exact ih v hrest
    | some k =>
      have hk : k = 0 := by
        have h0 := h t (by simp) (by simp [isAxisTok, ha])
        rw [ha] at h0
        exact Option.some.inj h0
      subst hk
      cases hv : parseFloat (tokRest t) with
      | none =>
        rw [updVec_cons_axis_noparse v ts ha hv]
        exact ih v hrest
      | some q =>
        rw [updVec_cons_axis v ts ha hv]
        have hset : setA v 0 q = ⟨q, v.y, v.z⟩ := by simp [setA]
        rw [hset]
        exact ih ⟨q, v.y, v.z⟩ hrest

lemma parseTokens_xonly (T : QMat3) (L : Limits) (x0 : Rat) (tr : Option Vec3)
    (l : String) (h : xOnlyLine l) :
    ∃ xN k, parseTokens T L ⟨⟨x0, 0, 0⟩, tr⟩ (splitWS l) =
      some ⟨(splitWS l).take k ++
              ["X" ++ formatF3 ((round3v (mulVecQ T ⟨xN, 0, 0⟩)).x),
               "Y" ++ formatF3 ((round3v (mulVecQ T ⟨xN, 0, 0⟩)).y),
               "Z" ++ formatF3 ((round3v (mulVecQ T ⟨xN, 0, 0⟩)).z)] ++
              passToks ((splitWS l).drop k),
            validateQ L (round3v (mulVecQ T ⟨xN, 0, 0⟩)),
            ⟨⟨xN, 0, 0⟩, some (round3v (mulVecQ T ⟨xN, 0, 0⟩))⟩⟩ := by
  obtain ⟨hformed, t, ht, hta⟩ := h
  have hall : ∀ u ∈ splitWS l, isAxisTok u = true → (parseFloat (tokRest u)).isSome = true :=
    fun u hu htu => (hformed u hu htu).2
  obtain ⟨k, hk⟩ := firstIdxA_isSome_of_mem ht hta
  have hupd := updVec_xonly ⟨x0, 0, 0⟩ (splitWS l) (fun u hu htu => (hformed u hu htu).1)
  have hvN : updVec (⟨x0, 0, 0⟩ : Vec3) (splitWS l) =
      ⟨(updVec (⟨x0, 0, 0⟩ : Vec3) (splitWS l)).x, 0, 0⟩ := by
    obtain ⟨h1, h2⟩ := hupd
    cases hv : updVec (⟨x0, 0, 0⟩ : Vec3) (splitWS l) with
    | mk a b c =>
      rw [hv] at h1 h2
      simp at h1 h2 ⊢
      exact ⟨h1, h2⟩
  refine ⟨(updVec (⟨x0, 0, 0⟩ : Vec3) (splitWS l)).x, k, ?_⟩
  rw [parseTokens_withAxis T L ⟨⟨x0, 0, 0⟩, tr⟩ (splitWS l) k hall hk]
  rw [← hvN]

/-- C4: in a session in which every processed line specifies only the X
axis, the Y and Z slots of the nominal position stay exactly 0 after every
line, and every output line carries Y and Z tokens equal to the matrix
applied to the vector of the most recent nominal X with Y = Z = 0, rounded
to three decimals and written out. -/
theorem c4_x_only_session (T : QMat3) (L : Limits) (lines : List String)
    (h : ∀ l ∈ lines, xOnlyLine l) :
    ∃ res, processLines T L initState lines = some res ∧
      ∀ r ∈ res, r.st.orig.y = 0 ∧ r.st.orig.z = 0 ∧
        ∃ pre post, r.outToks = pre ++
          ["X" ++ formatF3 ((round3v (mulVecQ T ⟨r.st.orig.x, 0, 0⟩)).x),
           "Y" ++ formatF3 ((round3v (mulVecQ T ⟨r.st.orig.x, 0, 0⟩)).y),
           "Z" ++ formatF3 ((round3v (mulVecQ T ⟨r.st.orig.x, 0, 0⟩)).z)] ++ post := by
  suffices hgen : ∀ (ls : List String) (x0 : Rat) (tr : Option Vec3),
      (∀ l ∈ ls, xOnlyLine l) →
      ∃ res, processLines T L ⟨⟨x0, 0, 0⟩, tr⟩ ls = some res ∧
        ∀ r ∈ res, r.st.orig.y = 0 ∧ r.st.orig.z = 0 ∧
          ∃ pre post, r.outToks = pre ++
            ["X" ++ formatF3 ((round3v (mulVecQ T ⟨r.st.orig.x, 0, 0⟩)).x),
             "Y" ++ formatF3 ((round3v (mulVecQ T ⟨r.st.orig.x, 0, 0⟩)).y),
             "Z" ++ formatF3 ((round3v (mulVecQ T ⟨r.st.orig.x, 0, 0⟩)).z)] ++ post by
    exact hgen lines 0 none h
  intro ls
  induction ls with
  | nil => intro x0 tr _; exact ⟨[], rfl, by simp⟩
  | cons l ls ih =>
    intro x0 tr hh
    obtain ⟨xN, k, hline⟩ := parseTokens_xonly T L x0 tr l (hh l (by simp))
    obtain ⟨res, hres, hfacts⟩ :=
      ih xN (some (round3v (mulVecQ T ⟨xN, 0, 0⟩))) (fun u hu => hh u (by simp [hu]))
    refine ⟨(⟨(splitWS l).take k ++
        ["X" ++ formatF3 ((round3v (mulVecQ T ⟨xN, 0, 0⟩)).x),
         "Y" ++ formatF3 ((round3v (mulVecQ T ⟨xN, 0, 0⟩)).y),
         "Z" ++ formatF3 ((round3v (mulVecQ T ⟨xN, 0, 0⟩)).z)] ++
        passToks ((splitWS l).drop k),
        validateQ L (round3v (mulVecQ T ⟨xN, 0, 0⟩)),
        ⟨⟨xN, 0, 0⟩, some (round3v (mulVecQ T ⟨xN, 0, 0⟩))⟩⟩ : LineRes) :: res, ?_, ?_⟩
    · simp only [processLines]
      rw [hline]
      simp only
      rw [hres]
      rfl
    · intro r hr
      rcases List.mem_cons.mp hr with rfl | hm
      · refine ⟨rfl, rfl, (splitWS l).take k, passToks ((splitWS l).drop k), rfl⟩
      · exact hfacts r hm

/-- C4, witness: a two-line X-only session with the identity matrix. -/
theorem c4_witness :
    (∀ l ∈ ["X1", "G1 X2.5 F3"], xOnlyLine l) ∧
      ∃ res, processLines idQ limsBig initState ["X1", "G1 X2.5 F3"] = some res ∧
        ∀ r ∈ res, r.st.orig.y = 0 ∧ r.st.orig.z = 0 ∧
          ∃ pre post, r.outToks = pre ++
            ["X" ++ formatF3 ((round3v (mulVecQ idQ ⟨r.st.orig.x, 0, 0⟩)).x),
             "Y" ++ formatF3 ((round3v (mulVecQ idQ ⟨r.st.orig.x, 0, 0⟩)).y),
             "Z" ++ formatF3 ((round3v (mulVecQ idQ ⟨r.st.orig.x, 0, 0⟩)).z)] ++ post :=
  ⟨by decide, c4_x_only_session idQ limsBig ["X1", "G1 X2.5 F3"] (by decide)⟩

lemma getA_setA_same (v : Vec3) (k : Nat) (q : Rat) : getA (setA v k q) k = q := by
  unfold getA setA
  by_cases h0 : k = 0
  · simp [h0]
  · by_cases h1 : k = 1 <;> simp [h0, h1]

lemma getA_setA_ne (v : Vec3) (j k : Nat) (q : Rat)
    (hk : k = 0 ∨ k = 1 ∨ k = 2) (hj : j = 0 ∨ j = 1 ∨ j = 2) (hne : k ≠ j) :
    getA (setA v k q) j = getA v j := by
  rcases hk with rfl | rfl | rfl <;> rcases hj with rfl | rfl | rfl <;>
    first
      | exact absurd rfl hne
      | simp [getA, setA]

lemma updVec_append (v : Vec3) (l1 l2 : List String) :
    updVec v (l1 ++ l2) = updVec (updVec v l1) l2 := by
  simp [updVec, List.foldl_append]

lemma getA_updVec_noj (v : Vec3) (ts : List String) (j : Nat)
    (hj : j = 0 ∨ j = 1 ∨ j = 2) (h : ∀ t ∈ ts, axisIdxOf t ≠ some j) :
    getA (updVec v ts) j = getA v j := by
  induction ts generalizing v with
  | nil => rfl
  | cons t ts ih =>
    have hrest : ∀ u ∈ ts, axisIdxOf u ≠ some j :=
      fun u hu => h u (List.mem_cons_of_mem _ hu)
    cases ha : axisIdxOf t with
    | none =>
      rw [updVec_cons_pass v ts ha]
      exact ih v hrest
    | some k =>
      cases hv : parseFloat (tokRest t) with
      | none =>
        rw [updVec_cons_axis_noparse v ts ha hv]
        exact ih v hrest
      | some q =>
        rw [updVec_cons_axis v ts ha hv, ih (setA v k q) hrest]
        refine getA_setA_ne v j k q (axisIdxOf_cases ha) hj (fun he => ?_)
        exact h t (by simp) (he ▸ ha)

lemma passToks_all_false (ts : List String) : ∀ u ∈ passToks ts, isAxisTok u = false := by
  intro u hu
  have := List.of_mem_filter hu
  simpa using this

/-- C10: when one line carries several axis words with the same axis
letter, each occurrence overwrites that nominal slot in token order, the
transform uses the value of the last occurrence, and none of the duplicate
occurrences appear among the pass-through tokens of the output (the only
axis-letter tokens of the output are the three inserted ones). -/
theorem c10_last_duplicate_wins (T : QMat3) (L : Limits) (st : PState)
    (ts1 ts2 ts3 : List String) (t1 t2 : String) (j : Nat) (v1 v2 : Rat)
    (hall : ∀ t ∈ ts1 ++ t1 :: ts2 ++ t2 :: ts3,
      isAxisTok t = true → (parseFloat (tokRest t)).isSome = true)
    (h1 : axisIdxOf t1 = some j) (hv1 : parseFloat (tokRest t1) = some v1)
    (h2 : axisIdxOf t2 = some j) (hv2 : parseFloat (tokRest t2) = some v2)
    (h3 : ∀ t ∈ ts3, axisIdxOf t ≠ some j) :
    ∃ r : LineRes, parseTokens T L st (ts1 ++ t1 :: ts2 ++ t2 :: ts3) = some r ∧
      getA r.st.orig j = v2 ∧
      r.st.transl = some (round3v (mulVecQ T r.st.orig)) ∧
      ∃ pre post,
        r.outToks = pre ++
          ["X" ++ formatF3 ((round3v (mulVecQ T r.st.orig)).x),
           "Y" ++ formatF3 ((round3v (mulVecQ T r.st.orig)).y),
           "Z" ++ formatF3 ((round3v (mulVecQ T r.st.orig)).z)] ++ post ∧
        (∀ u ∈ pre ++ post, isAxisTok u = false) ∧
        t1 ∉ pre ++ post ∧ t2 ∉ pre ++ post := by
  have hta : isAxisTok t1 = true := by simp [isAxisTok, h1]
  have htb : isAxisTok t2 = true := by simp [isAxisTok, h2]
  have ht1mem : t1 ∈ ts1 ++ t1 :: ts2 ++ t2 :: ts3 := by simp
  obtain ⟨k, hk⟩ := firstIdxA_isSome_of_mem ht1mem hta
  refine ⟨_, parseTokens_withAxis T L st (ts1 ++ t1 :: ts2 ++ t2 :: ts3) k hall hk,
    ?_, rfl, ?_⟩
  · have hj3 : j = 0 ∨ j = 1 ∨ j = 2 := axisIdxOf_cases h1
    have hchain : updVec st.orig (ts1 ++ t1 :: ts2 ++ t2 :: ts3) =
        updVec (setA (updVec (setA (updVec st.orig ts1) j v1) ts2) j v2) ts3 := by
      rw [updVec_append, updVec_append, updVec_cons_axis _ _ h1 hv1,
        updVec_cons_axis _ _ h2 hv2]
    simp only [hchain]
    rw [getA_updVec_noj _ ts3 j hj3 h3, getA_setA_same]
  · refine ⟨(ts1 ++ t1 :: ts2 ++ t2 :: ts3).take k,
      passToks ((ts1 ++ t1 :: ts2 ++ t2 :: ts3).drop k), rfl, ?_, ?_, ?_⟩
    · intro u hu
      rcases List.mem_append.mp hu with hpre | hpost
      · exact firstIdxA_take hk u hpre
      · exact passToks_all_false _ u hpost
    · intro hmem
      rcases List.mem_append.mp hmem with hpre | hpost
      · rw [firstIdxA_take hk t1 hpre] at hta; cases hta
      · rw [passToks_all_false _ t1 hpost] at hta; cases hta
    · intro hmem
      rcases List.mem_append.mp hmem with hpre | hpost
      · rw [firstIdxA_take hk t2 hpre] at htb; cases htb
      · rw [passToks_all_false _ t2 hpost] at htb; cases htb

/-- C10, witness: the line tokens `G1 X1 F2 X2.5 T7` with the identity
matrix; the nominal X ends at 2.5, the value of the last X word. -/
theorem c10_witness :
    ∃ r : Cnc.LineRes,
      parseTokens idQ limsBig initState (["G1"] ++ "X1" :: ["F2"] ++ "X2.5" :: ["T7"]) =
          some r ∧
        getA r.st.orig 0 = 5 / 2 ∧
        r.st.transl = some (round3v (mulVecQ idQ r.st.orig)) ∧
        ∃ pre post,
          r.outToks = pre ++
            ["X" ++ formatF3 ((round3v (mulVecQ idQ r.st.orig)).x),
             "Y" ++ formatF3 ((round3v (mulVecQ idQ r.st.orig)).y),
             "Z" ++ formatF3 ((round3v (mulVecQ idQ r.st.orig)).z)] ++ post ∧
          (∀ u ∈ pre ++ post, isAxisTok u = false) ∧
          "X1" ∉ pre ++ post ∧ "X2.5" ∉ pre ++ post :=
  c10_last_duplicate_wins idQ limsBig initState ["G1"] ["F2"] ["T7"] "X1" "X2.5" 0 1 (5 / 2)
    (by decide) (by decide) (by decide) (by decide) (by decide) (by decide)

/-! ## Solver lemmas and claims -/

lemma angles_nan (a b q h zx zy : ℝ) (ha : a ≠ 0) (hb : b ≠ 0)
    (hgeo : 1 < |((q ^ 2 - (a ^ 2 + b ^ 2)) / (2 * a)) / b|) :
    parse_parameters ⟨a, b, q, h, zx, zy⟩ =
      ⟨none, some (arctan2 h zx), some (arctan2 h zy)⟩ := by
  have h2a : (2 : ℝ) * a ≠ 0 := mul_ne_zero two_ne_zero ha
  unfold parse_parameters
  simp only [fdiv, if_neg h2a, if_neg hb, farccos]
  rw [if_neg]
  intro hcon
  have habs : |((q ^ 2 - (a ^ 2 + b ^ 2)) / (2 * a)) / b| ≤ 1 :=
    abs_le.mpr ⟨hcon.1, hcon.2⟩
  linarith

lemma calc_nan (A : Angles) (hab : A.angle_ab = none)
    (xac : ℝ) (hac : A.angle_ac = some xac) (xbc : ℝ) (hbc : A.angle_bc = some xbc) :
    calculate_matrix A = some nanMat3 := by
  unfold calculate_matrix basisF finv3 fdet3
  rw [hab, hac, hbc]
  simp [fcos, fsin, fsub, fmul, fadd, fdiv, fsqrt, fneg, fpow2, nanMat3]

/-- C3 (amended): the solver performs no validation and raises no
`InvalidCalibration`-style error: whenever the derived cosine argument
`w / b` lies outside `[-1, 1]` (a geometrically impossible diagonal),
`np.arccos` returns NaN, and `configure` completes, silently producing a
correction matrix every entry of which is NaN. -/
theorem c3_silent_nan (a b q h zx zy : ℝ) (ha : a ≠ 0) (hb : b ≠ 0)
    (hgeo : 1 < |((q ^ 2 - (a ^ 2 + b ^ 2)) / (2 * a)) / b|) :
    (parse_parameters ⟨a, b, q, h, zx, zy⟩).angle_ab = none ∧
      calculate_matrix (parse_parameters ⟨a, b, q, h, zx, zy⟩) = some nanMat3 := by
  have hp := angles_nan a b q h zx zy ha hb hgeo
  exact ⟨by rw [hp], calc_nan _ (by rw [hp]) _ (by rw [hp]) _ (by rw [hp])⟩

/-- C3, counterexample to the claim as stated: for side_x = side_y = 1 and
diagonal 10 (impossible: the derived cosine is 49), `configure` does not
fail; `angle_ab` is NaN and inversion silently returns the all-NaN matrix
rather than raising. -/
theorem c3_counterexample :
    (parse_parameters ⟨1, 1, 10, 1, 1, 1⟩).angle_ab = none ∧
      calculate_matrix (parse_parameters ⟨1, 1, 10, 1, 1, 1⟩) = some nanMat3 := by
  have hgeo : (1 : ℝ) < |(((10 : ℝ) ^ 2 - ((1 : ℝ) ^ 2 + (1 : ℝ) ^ 2)) / (2 * 1)) / 1| := by
    rw [show (((10 : ℝ) ^ 2 - ((1 : ℝ) ^ 2 + (1 : ℝ) ^ 2)) / (2 * 1)) / 1 = 49 by norm_num,
      abs_of_nonneg (by norm_num : (0 : ℝ) ≤ 49)]
    norm_num
  have hp := angles_nan 1 1 10 1 1 1 (by norm_num) (by norm_num) hgeo
  exact ⟨by rw [hp], calc_nan _ (by rw [hp]) _ (by rw [hp]) _ (by rw [hp])⟩

/-- C3, witness: a second impossible-diagonal input, through the amended
theorem. -/
theorem c3_witness :
    ((2 : ℝ) ≠ 0) ∧ ((1 : ℝ) ≠ 0) ∧
      (1 < |(((10 : ℝ) ^ 2 - ((2 : ℝ) ^ 2 + (1 : ℝ) ^ 2)) / (2 * 2)) / 1|) ∧
      (parse_parameters ⟨2, 1, 10, 1, 0, 0⟩).angle_ab = none ∧
      calculate_matrix (parse_parameters ⟨2, 1, 10, 1, 0, 0⟩) = some nanMat3 := by
  have hgeo : (1 : ℝ) < |(((10 : ℝ) ^ 2 - ((2 : ℝ) ^ 2 + (1 : ℝ) ^ 2)) / (2 * 2)) / 1| := by
    rw [show (((10 : ℝ) ^ 2 - ((2 : ℝ) ^ 2 + (1 : ℝ) ^ 2)) / (2 * 2)) / 1 = 95 / 4 by norm_num,
      abs_of_nonneg (by norm_num : (0 : ℝ) ≤ 95 / 4)]
    norm_num
  have hmain := c3_silent_nan 2 1 10 1 0 0 (by norm_num) (by norm_num) hgeo
  exact ⟨by norm_num, by norm_num, hgeo, hmain.1, hmain.2⟩

/-- The inverse `np.linalg.inv` produces for a real, nonsingular matrix,
multiplied on the right by the matrix itself, is the identity. -/
lemma finv3_mul_left (a b c d e f g h i : ℝ)
    (hdet : a * (e * i - f * h) - b * (d * i - f * g) + c * (d * h - e * g) ≠ 0) :
    ∃ T, finv3 ⟨some a, some b, some c, some d, some e, some f, some g, some h, some i⟩ =
        some T ∧
      fmatMul3 T ⟨some a, some b, some c, some d, some e, some f, some g, some h, some i⟩ =
        fid3 := by
  have hdet3 :
      fdet3 ⟨some a, some b, some c, some d, some e, some f, some g, some h, some i⟩ =
        some (a * (e * i - f * h) - b * (d * i - f * g) + c * (d * h - e * g)) := by
    simp [fdet3, fadd, fsub, fmul]
  refine ⟨⟨some ((e * i - f * h) / (a * (e * i - f * h) - b * (d * i - f * g) + c * (d * h - e * g))),
      some (-(b * i - c * h) / (a * (e * i - f * h) - b * (d * i - f * g) + c * (d * h - e * g))),
      some ((b * f - c * e) / (a * (e * i - f * h) - b * (d * i - f * g) + c * (d * h - e * g))),
      some (-(d * i - f * g) / (a * (e * i - f * h) - b * (d * i - f * g) + c * (d * h - e * g))),
      some ((a * i - c * g) / (a * (e * i - f * h) - b * (d * i - f * g) + c * (d * h - e * g))),
      some (-(a * f - c * d) / (a * (e * i - f * h) - b * (d * i - f * g) + c * (d * h - e * g))),
      some ((d * h - e * g) / (a * (e * i - f * h) - b * (d * i - f * g) + c * (d * h - e * g))),
      some (-(a * h - b * g) / (a * (e * i - f * h) - b * (d * i - f * g) + c * (d * h - e * g))),
      some ((a * e - b * d) / (a * (e * i - f * h) - b * (d * i - f * g) + c * (d * h - e * g)))⟩,
    ?_, ?_⟩
  · unfold finv3
    rw [hdet3, if_neg (by simpa using hdet)]
    simp [fdiv, fsub, fmul, fneg, if_neg hdet]
  · simp only [fmatMul3, fadd, fmul, fid3, FMat3.mk.injEq, Option.some.injEq]
    refine ⟨?_, ?_, ?_, ?_, ?_, ?_, ?_, ?_, ?_⟩ <;> (field_simp; ring)

/-- C7: whenever the three derived angles are well-defined reals and the
basis matrix built from them is nonsingular (its `sin(angle_ab)` factor and
the row-2 square root are nonzero), inversion succeeds and the
CorrectionMatrix times the basis matrix is exactly the identity. -/
theorem c7_inverse_times_basis (cfg : TranslationCfg) (α β γ : ℝ)
    (hp : parse_parameters cfg = ⟨some α, some β, some γ⟩)
    (hs : Real.sin α ≠ 0)
    (hr : 0 < 1 - Real.cos β * Real.cos β -
      ((Real.cos γ - Real.cos β * Real.cos α) / Real.sin α) *
        ((Real.cos γ - Real.cos β * Real.cos α) / Real.sin α)) :
    ∃ T, calculate_matrix (parse_parameters cfg) = some T ∧
      fmatMul3 T (basisF (parse_parameters cfg)) = fid3 := by
  rw [hp]
  have hbasis : basisF ⟨some α, some β, some γ⟩ =
      ⟨some 1, some (Real.cos α), some (Real.cos β),
       some 0, some (Real.sin α),
       some ((Real.cos γ - Real.cos β * Real.cos α) / Real.sin α),
       some 0, some 0,
       some (Real.sqrt (1 - Real.cos β * Real.cos β -
         ((Real.cos γ - Real.cos β * Real.cos α) / Real.sin α) *
           ((Real.cos γ - Real.cos β * Real.cos α) / Real.sin α)))⟩ := by
    unfold basisF
    simp [fcos, fsin, fsub, fmul, fdiv, fsqrt, fpow2, if_neg hs, if_neg (not_lt.mpr hr.le)]
    linarith
  have hdet : (1 : ℝ) *
        (Real.sin α *
            Real.sqrt (1 - Real.cos β * Real.cos β -
              ((Real.cos γ - Real.cos β * Real.cos α) / Real.sin α) *
                ((Real.cos γ - Real.cos β * Real.cos α) / Real.sin α)) -
          ((Real.cos γ - Real.cos β * Real.cos α) / Real.sin α) * 0) -
      Real.cos α *
        (0 *
            Real.sqrt (1 - Real.cos β * Real.cos β -
              ((Real.cos γ - Real.cos β * Real.cos α) / Real.sin α) *
                ((Real.cos γ - Real.cos β * Real.cos α) / Real.sin α)) -
          ((Real.cos γ - Real.cos β * Real.cos α) / Real.sin α) * 0) +
      Real.cos β * (0 * 0 - Real.sin α * 0) ≠ 0 := by
    have hsq : Real.sqrt (1 - Real.cos β * Real.cos β -
        ((Real.cos γ - Real.cos β * Real.cos α) / Real.sin α) *
          ((Real.cos γ - Real.cos β * Real.cos α) / Real.sin α)) ≠ 0 :=
      Real.sqrt_ne_zero'.mpr hr
    have hmul := mul_ne_zero hs hsq
    intro hzero
    apply hmul
    linarith [hzero]
  obtain ⟨T, hT, hTm⟩ := finv3_mul_left 1 (Real.cos α) (Real.cos β) 0 (Real.sin α)
    ((Real.cos γ - Real.cos β * Real.cos α) / Real.sin α) 0 0
    (Real.sqrt (1 - Real.cos β * Real.cos β -
      ((Real.cos γ - Real.cos β * Real.cos α) / Real.sin α) *
        ((Real.cos γ - Real.cos β * Real.cos α) / Real.sin α))) hdet
  refine ⟨T, ?_, ?_⟩
  · unfold calculate_matrix
    rw [hbasis]
    exact hT
  · rw [hbasis]
    exact hTm

lemma cfg7_angles : parse_parameters ⟨1, 1, Real.sqrt 2, 1, 0, 0⟩ =
    ⟨some (Real.pi / 2), some (Real.pi / 2), some (Real.pi / 2)⟩ := by
  unfold parse_parameters
  dsimp only
  have h1 : Real.sqrt 2 ^ 2 - ((1 : ℝ) ^ 2 + 1 ^ 2) = 0 := by
    rw [Real.sq_sqrt (by norm_num : (0 : ℝ) ≤ 2)]
    norm_num
  rw [h1]
  have harc : farccos (fdiv (fdiv (some 0) (some (2 * 1))) (some 1)) = some (Real.pi / 2) := by
    norm_num [fdiv, farccos, Real.arccos_zero]
  have hat : arctan2 1 0 = Real.pi / 2 := by norm_num [arctan2]
  rw [harc]
  simp only [hat]

/-- C7, witness: a calibration with an exactly right-angled geometry
(diagonal `sqrt 2`, zero z offsets). -/
theorem c7_witness :
    ∃ T, calculate_matrix (parse_parameters ⟨1, 1, Real.sqrt 2, 1, 0, 0⟩) = some T ∧
      fmatMul3 T (basisF (parse_parameters ⟨1, 1, Real.sqrt 2, 1, 0, 0⟩)) = fid3 :=
  c7_inverse_times_basis ⟨1, 1, Real.sqrt 2, 1, 0, 0⟩ (Real.pi / 2) (Real.pi / 2)
    (Real.pi / 2) cfg7_angles
    (by rw [Real.sin_pi_div_two]; norm_num)
    (by rw [Real.cos_pi_div_two, Real.sin_pi_div_two]; norm_num)

lemma s8_pos : 0 < 1 - u8 ^ 2 := by norm_num [u8]

lemma s8_ne : Real.sqrt (1 - u8 ^ 2) ≠ 0 := Real.sqrt_ne_zero'.mpr s8_pos

lemma s8_half : 1 / 2 ≤ Real.sqrt (1 - u8 ^ 2) :=
  (Real.le_sqrt (by norm_num) s8_pos.le).mpr (by norm_num [u8])

lemma s8_le_one : Real.sqrt (1 - u8 ^ 2) ≤ 1 := by
  have h := Real.sqrt_le_sqrt (show (1 : ℝ) - u8 ^ 2 ≤ 1 by nlinarith [sq_nonneg u8])
  rwa [Real.sqrt_one] at h

lemma s8_ge : 1 - u8 ^ 2 ≤ Real.sqrt (1 - u8 ^ 2) :=
  (Real.le_sqrt s8_pos.le s8_pos.le).mpr (by nlinarith [s8_pos, sq_nonneg u8])

lemma cfg8_angles : parse_parameters cfg8 =
    ⟨some (Real.arccos u8), some (Real.pi / 2), some (Real.pi / 2)⟩ := by
  unfold parse_parameters cfg8
  dsimp only
  have hat : arctan2 1 0 = Real.pi / 2 := by norm_num [arctan2]
  have hw : fdiv (fdiv (some (((141421 : ℝ) / 1000) ^ 2 - ((100 : ℝ) ^ 2 + (100 : ℝ) ^ 2)))
      (some (2 * 100))) (some (100 : ℝ)) = some u8 := by
    norm_num [fdiv, u8]
  rw [hw]
  have hfc : farccos (some u8) = some (Real.arccos u8) := by
    rw [show farccos (some u8) = if -1 ≤ u8 ∧ u8 ≤ 1 then some (Real.arccos u8) else none
      from rfl]
    rw [if_pos ⟨by norm_num [u8], by norm_num [u8]⟩]
  rw [hfc]
  simp only [hat]

/-- `np.linalg.inv` on the triangular basis shape this scenario yields. -/
lemma finv3_tri (c s : ℝ) (hs : s ≠ 0) :
    finv3 ⟨some 1, some c, some 0, some 0, some s, some 0, some 0, some 0, some 1⟩ =
      some ⟨some 1, some (-c / s), some 0, some 0, some (1 / s), some 0,
        some 0, some 0, some 1⟩ := by
  have hdet3 : fdet3 ⟨some 1, some c, some 0, some 0, some s, some 0, some 0, some 0,
      some 1⟩ = some s := by
    simp [fdet3, fadd, fsub, fmul]
  unfold finv3
  rw [hdet3, if_neg (by simpa using hs)]
  simp [fdiv, fsub, fmul, fneg, if_neg hs, div_self hs]

lemma cfg8_basis : basisF (parse_parameters cfg8) =
    ⟨some 1, some u8, some 0, some 0, some (Real.sqrt (1 - u8 ^ 2)), some 0,
     some 0, some 0, some 1⟩ := by
  rw [cfg8_angles]
  have hc : Real.cos (Real.arccos u8) = u8 :=
    Real.cos_arccos (by norm_num [u8]) (by norm_num [u8])
  have hsin : Real.sin (Real.arccos u8) = Real.sqrt (1 - u8 ^ 2) := Real.sin_arccos u8
  unfold basisF
  norm_num [fcos, fsin, fsub, fmul, fdiv, fsqrt, fpow2, hc, hsin,
    Real.cos_pi_div_two, s8_ne, Real.sqrt_one]

lemma cfg8_matrix : calculate_matrix (parse_parameters cfg8) =
    some ⟨some 1, some (-u8 / Real.sqrt (1 - u8 ^ 2)), some 0, some 0,
      some (1 / Real.sqrt (1 - u8 ^ 2)), some 0, some 0, some 0, some 1⟩ := by
  unfold calculate_matrix
  rw [cfg8_basis]
  exact finv3_tri u8 (Real.sqrt (1 - u8 ^ 2)) s8_ne

/-- C8, counterexample to the claim as stated: for side_x = side_y = 100
and diagonal 141.421 the CorrectionMatrix is not the identity (141.421 is
not exactly 100 times the square root of 2, so entry (0, 1) is nonzero). -/
theorem c8_counterexample : calculate_matrix (parse_parameters cfg8) ≠ some fid3 := by
  rw [cfg8_matrix]
  intro hEq
  have h1 := congrArg FMat3.e12 (Option.some.inj hEq)
  simp only [fid3] at h1
  have h3 := Option.some.inj h1
  exact div_ne_zero (by norm_num [u8]) s8_ne h3

/-- C8 (amended): for side_x = side_y = 100 and diagonal 141.421 the
derived angle_ab is within 1/10000 of a right angle and the
CorrectionMatrix is within 1/10000 of the identity entrywise, but it is
not exactly the identity: its off-diagonal (0, 1) entry is nonzero. -/
theorem c8_near_identity :
    ∃ α t u, parse_parameters cfg8 = ⟨some α, some (Real.pi / 2), some (Real.pi / 2)⟩ ∧
      |α - Real.pi / 2| < 1 / 10000 ∧
      calculate_matrix (parse_parameters cfg8) =
        some ⟨some 1, some t, some 0, some 0, some u, some 0, some 0, some 0, some 1⟩ ∧
      t ≠ 0 ∧ |t| < 1 / 10000 ∧ |u - 1| < 1 / 10000 := by
  have hs_pos : 0 < Real.sqrt (1 - u8 ^ 2) := Real.sqrt_pos.mpr s8_pos
  refine ⟨Real.arccos u8, -u8 / Real.sqrt (1 - u8 ^ 2), 1 / Real.sqrt (1 - u8 ^ 2),
    cfg8_angles, ?_, cfg8_matrix, div_ne_zero (by norm_num [u8]) s8_ne, ?_, ?_⟩
  · rw [Real.arccos_eq_pi_div_two_sub_arcsin,
      show Real.pi / 2 - Real.arcsin u8 - Real.pi / 2 = -Real.arcsin u8 by ring, abs_neg,
      show Real.arcsin u8 = -Real.arcsin (100759 / 20000000000) by
        rw [show u8 = -(100759 / 20000000000 : ℝ) from rfl, Real.arcsin_neg],
      abs_neg, abs_of_nonneg (Real.arcsin_nonneg.mpr (by norm_num))]
    have hεsin : (100759 / 20000000000 : ℝ) < Real.sin (1 / 10000) := by
      have hgt := Real.sin_gt_sub_cube (by norm_num : (0 : ℝ) < 1 / 10000)
        (by norm_num : (1 / 10000 : ℝ) ≤ 1)
      nlinarith [hgt]
    have harc : Real.arcsin (100759 / 20000000000) < Real.arcsin (Real.sin (1 / 10000)) :=
      Real.strictMonoOn_arcsin (Set.mem_Icc.mpr ⟨by norm_num, by norm_num⟩)
        (Set.mem_Icc.mpr ⟨Real.neg_one_le_sin _, Real.sin_le_one _⟩) hεsin
    have hpi := Real.pi_gt_three
    rwa [Real.arcsin_sin (by linarith) (by linarith)] at harc
  · have htpos : 0 < -u8 / Real.sqrt (1 - u8 ^ 2) :=
      div_pos (by norm_num [u8]) hs_pos
    rw [abs_of_pos htpos, div_lt_iff hs_pos]
    have hu8v : -u8 = (100759 / 20000000000 : ℝ) := by norm_num [u8]
    nlinarith [s8_half, hu8v]
  · have hge1 : 1 ≤ 1 / Real.sqrt (1 - u8 ^ 2) := by
      rw [le_div_iff hs_pos]
      nlinarith [s8_le_one]
    rw [abs_of_nonneg (by linarith), sub_lt_iff_lt_add, div_lt_iff hs_pos]
    have hu8sq : u8 ^ 2 < 1 / 100000 := by norm_num [u8]
    nlinarith [s8_ge, hu8sq, s8_le_one, hs_pos]

end Cnc
